import Mathlib

/-!
Verification of the mergeish workspace-orchestration engine.

This file gives a shallow embedding of the Go sources:
  internal/config/config.go    (Config, Validate, Parse)
  internal/repo/repo.go        (Repo, Clone, IsCloned, ...)
  internal/git/git.go          (driver results, modelled as an oracle)
  internal/workspace/workspace.go (forEach fan-out, workflows)
  cmd/mergeish/main.go         (command layer: status, pr status, pr close)

The external git / gh processes are modelled by a per-repository
`DriverState` oracle: the result of each driver call is a field of the state,
and PR-host state (the open pull request for the current branch) is part
of it so that create-then-lookup sequencing can be expressed.  The calls
an operation actually performs are collected in a `Call` trace.

Concurrency model: the Go fan-out pre-allocates a result slice and lets
one goroutine per repository write only its own slot, joining before
returning.  We embed this as `parRun`: a fold over an arbitrary
completion schedule (a permutation of the index range) writing disjoint
slots of a `replicate n none` slot list.  The sequential branch is the
same fold over the in-order schedule `List.range n`, exactly as the Go
sequential loop writes `results[i]` in order.
-/

deriving instance DecidableEq for Except

namespace Mergeish

/-- Error kinds produced by the engine itself plus opaque driver errors.
Go represents these as `fmt.Errorf` strings; we give the engine-origin
ones constructors so claims can name them. -/
inductive Err where
  /-- workspace layer `fmt.Errorf("not cloned")` -/
  | notCloned : Err
  /-- repo layer `fmt.Errorf("repository not cloned")` (repo.Status) -/
  | repoNotCloned : Err
  /-- `fmt.Errorf("branch %q already exists", name)` -/
  | branchAlreadyExists (name : String) : Err
  /-- `fmt.Errorf("cannot delete current branch")` -/
  | cannotDeleteCurrent : Err
  /-- `fmt.Errorf("%s: %w", ctx, e)` wrapping -/
  | wrapped (ctx : String) (e : Err) : Err
  /-- opaque error surfaced by the external git / gh tool -/
  | driver (msg : String) : Err
deriving DecidableEq, Repr

/-- Config-layer errors (config.go Validate / Parse). -/
inductive ConfigErr where
  /-- `repo %d: url is required` -/
  | urlRequired (i : Nat) : ConfigErr
  /-- `repo %d: path is required` -/
  | pathRequired (i : Nat) : ConfigErr
  /-- `repo %d: duplicate path %q` -/
  | duplicatePath (i : Nat) (path : String) : ConfigErr
  /-- `parsing config: %w` from yaml.Unmarshal -/
  | yamlError (msg : String) : ConfigErr
deriving DecidableEq, Repr

/-- Embeds git.go FileStatus. -/
structure FileStatus where
  path : String
  status : String
deriving DecidableEq, Repr

/-- Embeds git.go Status. -/
structure GitStatus where
  branch : String
  hasChanges : Bool
  stagedChanges : Bool
  ahead : Nat
  behind : Nat
  files : List FileStatus
deriving DecidableEq, Repr

/-- Embeds git.go PRInfo. -/
structure PRInfo where
  number : Nat
  title : String
  url : String
  state : String
  branch : String
deriving DecidableEq, Repr

/-- One driver invocation (an external git / gh process call) performed by
an engine operation, with the arguments the engine passed. -/
inductive Call where
  | mkdirParent : Call
  | cloneCall (url path : String) : Call
  | pullCall (rebase : Bool) : Call
  | pushCall (force : Bool) : Call
  | currentBranchCall : Call
  | branchExistsCall (name : String) : Call
  | checkoutNewCall (name : String) : Call
  | checkoutCall (name : String) : Call
  | deleteBranchCall (name : String) : Call
  | addAllCall : Call
  | hasStagedCall : Call
  | commitCall (message : String) : Call
  | statusCall : Call
  | runGitCall (args : List String) : Call
  | getPRCall : Call
  | createPRCall (title body base : String) : Call
  | closePRCall : Call
deriving DecidableEq, Repr

/-- Embeds config.go RepoConfig. -/
structure RepoConfig where
  url : String
  path : String
deriving DecidableEq, Repr

/-- Embeds config.go Settings. -/
structure Settings where
  defaultBranch : String
  parallel : Bool
deriving DecidableEq, Repr

/-- Embeds config.go Config. -/
structure Config where
  repos : List RepoConfig
  settings : Settings
deriving DecidableEq, Repr

/-- The loop body of config.go Validate: `seen` is the set of paths already
accepted (a list here), `i` the running index used in error messages. -/
def validateFrom : List RepoConfig → Nat → List String → Option ConfigErr
  | [], _, _ => none
  | rc :: rest, i, seen =>
    if rc.url = "" then some (.urlRequired i)
    else if rc.path = "" then some (.pathRequired i)
    else if seen.contains rc.path then some (.duplicatePath i rc.path)
    else validateFrom rest (i + 1) (rc.path :: seen)

/-- Embeds config.go Validate. Returns `none` on success. -/
def Config.Validate (c : Config) : Option ConfigErr :=
  validateFrom c.repos 0 []

/-- Embeds config.go Parse.  The yaml.Unmarshal step is an external collaborator;
its outcome (the decoded Config, seeded from DefaultConfig) is taken as
the argument `decoded`. -/
def Parse (decoded : Except String Config) : Except ConfigErr Config :=
  match decoded with
  | .error e => .error (.yamlError e)
  | .ok cfg =>
    match cfg.Validate with
    | some e => .error e
    | none => .ok cfg

/-- Oracle for the external driver (git / gh) as seen from one repository:
the result every driver capability would return in the current
on-disk / on-host state.  `hostPR` is the open pull request the host has
for the current branch (returned by `gh pr view`), `createdPR` the record a
successful `gh pr create` would produce. -/
structure DriverState where
  cloned : Bool
  mkdirResult : Option Err
  cloneResult : Option Err
  pullResult : Bool → Option Err
  pushResult : Bool → Option Err
  currentBranch : Except Err String
  branchExists : String → Bool
  checkoutNewResult : String → Option Err
  checkoutResult : String → Option Err
  deleteBranchResult : String → Option Err
  addAllResult : Option Err
  hasStagedChanges : Except Err Bool
  statusResult : Except Err GitStatus
  commitResult : String → Option Err
  runGitResult : List String → String × String × Option Err
  getPRFail : Option Err
  hostPR : Option PRInfo
  createdPR : PRInfo
  createFail : Option Err
  closePRResult : Option Err

/-- Models filepath.Join as used by repo.New. -/
def joinPath (a b : String) : String := a ++ "/" ++ b

/-- Embeds repo.go Repo: one managed repository (its config, resolved location,
and the driver scoped to that location). -/
structure Repo where
  cfg : RepoConfig
  fullPath : String
  drv : DriverState

/-- Embeds repo.go Name(): the display name is the configured path. -/
def Repo.Name (r : Repo) : String := r.cfg.path

/-- Embeds repo.go IsCloned(): directory exists and the driver recognizes a repo
root.  A side-effect-free predicate, part of the oracle. -/
def Repo.IsCloned (r : Repo) : Bool := r.drv.cloned

/-- Embeds repo.go GetPR() / git.go GetPR(): fails with the lookup
failure, otherwise reports the PR the host has for the current branch (`none`
when no PR exists — Go returns `(nil, nil)` in that case). -/
def Repo.GetPR (r : Repo) : Except Err (Option PRInfo) :=
  match r.drv.getPRFail with
  | some e => .error e
  | none => .ok r.drv.hostPR

/-- Embeds repo.go New: resolve the full path against the workspace root and
attach the driver for that location (`fs` maps a configured path to the
driver state of the corresponding on-disk location). -/
def Repo.New (rc : RepoConfig) (root : String) (fs : String → DriverState) : Repo :=
  { cfg := rc, fullPath := joinPath root rc.path, drv := fs rc.path }

/-- The closure workspace.Clone passes to forEach: skip if already cloned,
else repo.Clone = MkdirAll(parent) then git.Clone(url, fullPath). -/
def cloneOp (r : Repo) : Option Err × List Call :=
  if r.IsCloned then (none, [])
  else
    match r.drv.mkdirResult with
    | some e => (some (.wrapped "creating parent directory" e), [.mkdirParent])
    | none => (r.drv.cloneResult, [.mkdirParent, .cloneCall r.cfg.url r.fullPath])

/-- The closure workspace.Pull passes to forEach. -/
def pullOp (rebase : Bool) (r : Repo) : Option Err × List Call :=
  if !r.IsCloned then (some .notCloned, [])
  else (r.drv.pullResult rebase, [.pullCall rebase])

/-- The closure workspace.Push passes to forEach. -/
def pushOp (force : Bool) (r : Repo) : Option Err × List Call :=
  if !r.IsCloned then (some .notCloned, [])
  else (r.drv.pushResult force, [.pushCall force])

/-- The per-repository body of workspace.Status: repo.Status checks
IsCloned itself and otherwise delegates to git.Status.  The payload keeps
both the status pointer and the error, as the Go StatusResult does. -/
def statusOp (r : Repo) : (Option GitStatus × Option Err) × List Call :=
  if !r.IsCloned then ((none, some .repoNotCloned), [])
  else
    match r.drv.statusResult with
    | .error e => ((none, some e), [.statusCall])
    | .ok s => ((some s, none), [.statusCall])

/-- The closure workspace.CreateBranch passes to forEach. -/
def createBranchOp (name : String) (r : Repo) : Option Err × List Call :=
  if !r.IsCloned then (some .notCloned, [])
  else if r.drv.branchExists name then
    (some (.branchAlreadyExists name), [.branchExistsCall name])
  else
    (r.drv.checkoutNewResult name, [.branchExistsCall name, .checkoutNewCall name])

/-- The closure workspace.DeleteBranch passes to forEach. -/
def deleteBranchOp (name : String) (r : Repo) : Option Err × List Call :=
  if !r.IsCloned then (some .notCloned, [])
  else
    match r.drv.currentBranch with
    | .error e => (some e, [.currentBranchCall])
    | .ok current =>
      if current = name then (some .cannotDeleteCurrent, [.currentBranchCall])
      else (r.drv.deleteBranchResult name, [.currentBranchCall, .deleteBranchCall name])

/-- The closure workspace.Checkout passes to forEach: switch if the branch
exists, else create-and-switch. -/
def checkoutOp (name : String) (r : Repo) : Option Err × List Call :=
  if !r.IsCloned then (some .notCloned, [])
  else if r.drv.branchExists name then
    (r.drv.checkoutResult name, [.branchExistsCall name, .checkoutCall name])
  else
    (r.drv.checkoutNewResult name, [.branchExistsCall name, .checkoutNewCall name])

/-- Tail of the commit closure after the optional stage-all step: check
for staged changes, commit only when some exist. -/
def commitAfterStage (message : String) (r : Repo) (pre : List Call) :
    Option Err × List Call :=
  match r.drv.hasStagedChanges with
  | .error e => (some e, pre ++ [.hasStagedCall])
  | .ok false => (none, pre ++ [.hasStagedCall])
  | .ok true => (r.drv.commitResult message, pre ++ [.hasStagedCall, .commitCall message])

/-- The closure workspace.Commit passes to forEach. -/
def commitOp (message : String) (addAll : Bool) (r : Repo) : Option Err × List Call :=
  if !r.IsCloned then (some .notCloned, [])
  else if addAll then
    match r.drv.addAllResult with
    | some e => (some e, [.addAllCall])
    | none => commitAfterStage message r [.addAllCall]
  else commitAfterStage message r []

/-- The per-repository body of workspace.RunGit. -/
def runGitOp (args : List String) (r : Repo) :
    (String × String × Option Err) × List Call :=
  if !r.IsCloned then (("", "", some .notCloned), [])
  else (r.drv.runGitResult args, [.runGitCall args])

/-- The per-repository body of workspace.GetPRs. -/
def getPROp (r : Repo) : (Option PRInfo × Option Err) × List Call :=
  if !r.IsCloned then ((none, some .notCloned), [])
  else
    match r.GetPR with
    | .error e => ((none, some e), [.getPRCall])
    | .ok pr => ((pr, none), [.getPRCall])

/-- Payload of a CreatePRs outcome: the PR (if any), the Existed marker,
and the error — the fields of the Go PRResult besides the repo. -/
structure PRPayload where
  pr : Option PRInfo
  existed : Bool
  error : Option Err
deriving DecidableEq, Repr

/-- The host-side effect of a successful `gh pr create`: the current branch of the handle now has the created PR open. -/
def afterCreate (r : Repo) : Repo :=
  { r with drv := { r.drv with hostPR := some r.drv.createdPR } }

/-- The `createPR` closure inside workspace.CreatePRs: look up an existing
PR first (wrapping lookup failures), reuse it with Existed = true, else
create one; the Go repo.CreatePR runs `gh pr create` and then re-reads the
PR via GetPR, so on success the host state now holds the created PR.  The
returned Repo carries the updated host state. -/
def createPROp (title body base : String) (r : Repo) :
    (PRPayload × Repo) × List Call :=
  if !r.IsCloned then ((⟨none, false, some .notCloned⟩, r), [])
  else
    match r.GetPR with
    | .error e =>
      ((⟨none, false, some (.wrapped "checking existing PR" e)⟩, r), [.getPRCall])
    | .ok (some existingPR) =>
      ((⟨some existingPR, true, none⟩, r), [.getPRCall])
    | .ok none =>
      match r.drv.createFail with
      | some e =>
        ((⟨none, false, some e⟩, r), [.getPRCall, .createPRCall title body base])
      | none =>
        match (afterCreate r).GetPR with
        | .error e =>
          ((⟨none, false, some e⟩, afterCreate r),
            [.getPRCall, .createPRCall title body base, .getPRCall])
        | .ok pr =>
          ((⟨pr, false, none⟩, afterCreate r),
            [.getPRCall, .createPRCall title body base, .getPRCall])

/-- The closure workspace.ClosePRs passes to forEach. -/
def closePROp (r : Repo) : Option Err × List Call :=
  if !r.IsCloned then (some .notCloned, [])
  else (r.drv.closePRResult, [.closePRCall])

/-- The slot-writing fan-out of workspace.forEach (and of the structurally
identical loops in Status, RunGit, GetPRs, CreatePRs): a result slice of
`repos.length` pre-allocated empty slots, and one unit of work per index
`i` writing `some (repos[i], p repos[i])` into slot `i` only.  `sched` is
the order in which the concurrent units happen to complete; the result
must not depend on it, which is claim C1. -/
def slotWrite (repos : List Repo) (p : Repo → β)
    (acc : List (Option (Repo × β))) (i : Nat) : List (Option (Repo × β)) :=
  match repos[i]? with
  | some r => acc.set i (some (r, p r))
  | none => acc

/-- The join of the fan-out: all units have run, in completion order
`sched`, each through its own `slotWrite`. -/
def parRun (repos : List Repo) (p : Repo → β) (sched : List Nat) :
    List (Option (Repo × β)) :=
  sched.foldl (slotWrite repos p) (List.replicate repos.length none)

/-- Embeds workspace.go Workspace (the fields the engine uses). -/
structure Workspace where
  Repos : List Repo
  Parallel : Bool

/-- Embeds workspace.New: one handle per descriptor, order preserved; parallel
flag from settings. -/
def Workspace.New (cfg : Config) (root : String) (fs : String → DriverState) :
    Workspace :=
  { Repos := cfg.repos.map (fun rc => Repo.New rc root fs),
    Parallel := cfg.settings.parallel }

/-- Embeds workspace.Load: parse the config (decode outcome supplied by the
external yaml collaborator) and construct the workspace. -/
def Workspace.Load (decoded : Except String Config) (root : String)
    (fs : String → DriverState) : Except ConfigErr Workspace :=
  match Parse decoded with
  | .error e => .error e
  | .ok cfg => .ok (Workspace.New cfg root fs)

/-- Embeds workspace.forEach generalized over the payload: when Parallel, the
goroutines complete in schedule order `sched`; the sequential branch is
literally the in-order schedule. -/
def Workspace.forEach (w : Workspace) (sched : List Nat) (p : Repo → β) :
    List (Option (Repo × β)) :=
  parRun w.Repos p (if w.Parallel then sched else List.range w.Repos.length)

/-- Embeds workspace.Clone. -/
def Workspace.Clone (w : Workspace) (sched : List Nat) :
    List (Option (Repo × (Option Err × List Call))) :=
  w.forEach sched cloneOp

/-- Embeds workspace.Pull. -/
def Workspace.Pull (w : Workspace) (rebase : Bool) (sched : List Nat) :
    List (Option (Repo × (Option Err × List Call))) :=
  w.forEach sched (pullOp rebase)

/-- Embeds workspace.Push. -/
def Workspace.Push (w : Workspace) (force : Bool) (sched : List Nat) :
    List (Option (Repo × (Option Err × List Call))) :=
  w.forEach sched (pushOp force)

/-- Embeds workspace.Status. -/
def Workspace.Status (w : Workspace) (sched : List Nat) :
    List (Option (Repo × ((Option GitStatus × Option Err) × List Call))) :=
  w.forEach sched statusOp

/-- Embeds workspace.CreateBranch. -/
def Workspace.CreateBranch (w : Workspace) (name : String) (sched : List Nat) :
    List (Option (Repo × (Option Err × List Call))) :=
  w.forEach sched (createBranchOp name)

/-- Embeds workspace.DeleteBranch. -/
def Workspace.DeleteBranch (w : Workspace) (name : String) (sched : List Nat) :
    List (Option (Repo × (Option Err × List Call))) :=
  w.forEach sched (deleteBranchOp name)

/-- Embeds workspace.Checkout. -/
def Workspace.Checkout (w : Workspace) (name : String) (sched : List Nat) :
    List (Option (Repo × (Option Err × List Call))) :=
  w.forEach sched (checkoutOp name)

/-- Embeds workspace.Commit. -/
def Workspace.Commit (w : Workspace) (message : String) (addAll : Bool)
    (sched : List Nat) : List (Option (Repo × (Option Err × List Call))) :=
  w.forEach sched (commitOp message addAll)

/-- Embeds workspace.RunGit. -/
def Workspace.RunGit (w : Workspace) (args : List String) (sched : List Nat) :
    List (Option (Repo × ((String × String × Option Err) × List Call))) :=
  w.forEach sched (runGitOp args)

/-- Embeds workspace.GetPRs. -/
def Workspace.GetPRs (w : Workspace) (sched : List Nat) :
    List (Option (Repo × ((Option PRInfo × Option Err) × List Call))) :=
  w.forEach sched getPROp

/-- Embeds workspace.CreatePRs. -/
def Workspace.CreatePRs (w : Workspace) (title body base : String)
    (sched : List Nat) : List (Option (Repo × ((PRPayload × Repo) × List Call))) :=
  w.forEach sched (createPROp title body base)

/-- Embeds workspace.ClosePRs. -/
def Workspace.ClosePRs (w : Workspace) (sched : List Nat) :
    List (Option (Repo × (Option Err × List Call))) :=
  w.forEach sched closePROp

/-- The loop of workspace.CheckBranchConsistency with its two mutable
locals (`firstBranch`, initially "", and `consistent`, initially true)
made explicit. -/
def checkFrom : List Repo → String → Bool → Except Err (String × Bool)
  | [], firstBranch, consistent => .ok (firstBranch, consistent)
  | r :: rest, firstBranch, consistent =>
    if !r.IsCloned then checkFrom rest firstBranch consistent
    else
      match r.drv.currentBranch with
      | .error e => .error e
      | .ok branch =>
        if firstBranch = "" then checkFrom rest branch consistent
        else if branch ≠ firstBranch then checkFrom rest firstBranch false
        else checkFrom rest firstBranch consistent

/-- Embeds workspace.CheckBranchConsistency. -/
def Workspace.CheckBranchConsistency (w : Workspace) : Except Err (String × Bool) :=
  checkFrom w.Repos "" true

/-- Embeds workspace.HasErrors over the slot list: a written slot whose payload
carries an error. -/
def HasErrors (results : List (Option (Repo × (Option Err × List Call)))) : Bool :=
  results.any (fun o =>
    match o with
    | some (_, (some _, _)) => true
    | _ => false)

/-- All driver calls performed by a fan-out, in slot order. -/
def collectCalls (results : List (Option (Repo × (β × List Call)))) : List Call :=
  results.foldr
    (fun o acc =>
      match o with
      | some (_, (_, t)) => t ++ acc
      | none => acc)
    []

/-! Command layer (cmd/mergeish/main.go).  A `RunE` that returns a
non-nil error makes the process exit non-zero, so the exit contract is the
`Except` value; what the command prints per repository is abstracted into
`Out` events. -/

/-- Abstracted terminal output events of the command layer. -/
inductive Out where
  /-- the "repositories are on different branches" warning -/
  | warnInconsistent : Out
  /-- a header naming the common branch -/
  | branchHeader (branch : String) : Out
  /-- a per-repository success line for the named repo -/
  | repoOk (name : String) : Out
  /-- a per-repository failure line for the named repo -/
  | repoErr (name : String) (e : Err) : Out
deriving DecidableEq, Repr

/-- The branch-count warning of statusCmd: the Go code counts status lines per
branch name in a map and warns when the map has more than one key, i.e.
when some reported branch differs from the first one. -/
def multipleBranches (branches : List String) : Bool :=
  match branches with
  | [] => false
  | b :: rest => rest.any (fun b' => b' ≠ b)

/-- The per-repository report lines of statusCmd: an error line or the
status block, in slot order. -/
def statusLines (results : List (Option (Repo × ((Option GitStatus × Option Err) × List Call)))) :
    List Out :=
  results.foldr
    (fun o acc =>
      match o with
      | some (r, ((_, some e), _)) => Out.repoErr r.Name e :: acc
      | some (r, ((_, none), _)) => Out.repoOk r.Name :: acc
      | none => acc)
    []

/-- Embeds statusCmd: run the Status fan-out, warn when the per-repo statuses
name more than one branch, print the outcome of every repository — and return
nil unconditionally (the Go RunE has no error aggregation). -/
def statusCmd (w : Workspace) (sched : List Nat) : List Out × Except Err Unit :=
  let results := w.Status sched
  let branches := results.foldr
    (fun o acc =>
      match o with
      | some (_, ((some s, _), _)) => s.branch :: acc
      | _ => acc)
    []
  let warn := if multipleBranches branches then [Out.warnInconsistent] else []
  (warn ++ statusLines results, .ok ())

/-- The per-repository report lines of prStatusCmd, in slot order. -/
def prStatusLines (results : List (Option (Repo × ((Option PRInfo × Option Err) × List Call)))) :
    List Out :=
  results.foldr
    (fun o acc =>
      match o with
      | some (r, ((_, some e), _)) => Out.repoErr r.Name e :: acc
      | some (r, ((_, none), _)) => Out.repoOk r.Name :: acc
      | none => acc)
    []

/-- Embeds prStatusCmd: consistency check first (a branch-read failure aborts;
inconsistency only warns), then the GetPRs fan-out, printing the outcome of every
repository — and return nil unconditionally. -/
def prStatusCmd (w : Workspace) (sched : List Nat) : List Out × Except Err Unit :=
  match w.CheckBranchConsistency with
  | .error e => ([], .error e)
  | .ok (branch, consistent) =>
    let head := if !consistent then [Out.warnInconsistent] else [Out.branchHeader branch]
    let results := w.GetPRs sched
    (head ++ prStatusLines results, .ok ())

/-- The per-repository report lines of prCloseCmd, in slot order. -/
def closeLines (results : List (Option (Repo × (Option Err × List Call)))) :
    List Out :=
  results.foldr
    (fun o acc =>
      match o with
      | some (r, (some e, _)) => Out.repoErr r.Name e :: acc
      | some (r, (none, _)) => Out.repoOk r.Name :: acc
      | none => acc)
    []

/-- Embeds prCloseCmd: consistency check first (a branch-read failure aborts;
inconsistency only prints a warning), then the ClosePRs fan-out is
dispatched regardless; exits non-zero iff the close of some repository failed.
The middle component is every driver call the fan-out performed. -/
def prCloseCmd (w : Workspace) (sched : List Nat) :
    List Out × List Call × Except Err Unit :=
  match w.CheckBranchConsistency with
  | .error e => ([], [], .error e)
  | .ok (branch, consistent) =>
    let warn := if !consistent then [Out.warnInconsistent] else []
    let results := w.ClosePRs sched
    (warn ++ Out.branchHeader branch :: closeLines results,
      collectCalls results,
      if HasErrors results then .error (.driver "failed to close PRs for some repositories")
      else .ok ())

/-! Analysis helpers (not part of the Go source; used to state properties). -/

/-- The current branches of the cloned handles, in list order; errors with
the first failing read, as the consistency scan does. -/
def clonedBranchList : List Repo → Except Err (List String)
  | [] => .ok []
  | r :: rest =>
    if !r.IsCloned then clonedBranchList rest
    else
      match r.drv.currentBranch with
      | .error e => .error e
      | .ok b => (clonedBranchList rest).map (fun bs => b :: bs)

/-- The pure accumulator recursion underlying `checkFrom`, on the branch
strings alone. -/
def consFold : List String → String → Bool → String × Bool
  | [], firstBranch, consistent => (firstBranch, consistent)
  | b :: rest, firstBranch, consistent =>
    if firstBranch = "" then consFold rest b consistent
    else if b ≠ firstBranch then consFold rest firstBranch false
    else consFold rest firstBranch consistent

/-- A fan-out result list is aligned with the handle list: same length,
and slot i was written with the handle at index i. -/
def alignedWith (results : List (Option (Repo × β))) (repos : List Repo) : Prop :=
  results.length = repos.length ∧
  ∀ i, (hi : i < repos.length) → ∃ b, results[i]? = some (some (repos[i], b))

/-- The payload written into slot i, when the slot was written. -/
def slotPayload (results : List (Option (Repo × β))) (i : Nat) : Option β :=
  (results[i]?.join).map Prod.snd

/-- The driver calls recorded in slot i (empty when unwritten). -/
def slotCalls (results : List (Option (Repo × (β × List Call)))) (i : Nat) :
    List Call :=
  ((slotPayload results i).map Prod.snd).getD []

/-- Claim C1 as a predicate: every one of the twelve fan-out workflows
returns a result list of the same length as the handle list whose slot i
was written with the handle at index i. -/
def C1Prop (w : Workspace) (sched : List Nat) (rebase force : Bool)
    (name message : String) (addAll : Bool) (args : List String)
    (title body base : String) : Prop :=
  alignedWith (w.Clone sched) w.Repos ∧
  alignedWith (w.Pull rebase sched) w.Repos ∧
  alignedWith (w.Push force sched) w.Repos ∧
  alignedWith (w.Status sched) w.Repos ∧
  alignedWith (w.CreateBranch name sched) w.Repos ∧
  alignedWith (w.DeleteBranch name sched) w.Repos ∧
  alignedWith (w.Checkout name sched) w.Repos ∧
  alignedWith (w.Commit message addAll sched) w.Repos ∧
  alignedWith (w.RunGit args sched) w.Repos ∧
  alignedWith (w.GetPRs sched) w.Repos ∧
  alignedWith (w.CreatePRs title body base sched) w.Repos ∧
  alignedWith (w.ClosePRs sched) w.Repos

/-! Concrete driver fixtures used by witnesses and counterexamples. -/

/-- A cloned repository on branch `main`, every driver call succeeding,
no working-tree changes and no open pull request. -/
def idleDriver : DriverState where
  cloned := true
  mkdirResult := none
  cloneResult := none
  pullResult := fun _ => none
  pushResult := fun _ => none
  currentBranch := .ok "main"
  branchExists := fun _ => false
  checkoutNewResult := fun _ => none
  checkoutResult := fun _ => none
  deleteBranchResult := fun _ => none
  addAllResult := none
  hasStagedChanges := .ok false
  statusResult := .ok ⟨"main", false, false, 0, 0, []⟩
  commitResult := fun _ => none
  runGitResult := fun _ => ("", "", none)
  getPRFail := none
  hostPR := none
  createdPR := ⟨7, "t", "u", "OPEN", "main"⟩
  createFail := none
  closePRResult := none

/-- A handle fixture over a driver state. -/
def mkRepo (nm : String) (d : DriverState) : Repo :=
  { cfg := { url := "git@example.com:" ++ nm, path := nm }, fullPath := "/ws/" ++ nm, drv := d }

/-- Fixture: a cloned repo and an uncloned repo, parallel execution. -/
def wMixed : Workspace :=
  { Repos := [mkRepo "a" idleDriver, mkRepo "b" { idleDriver with cloned := false }],
    Parallel := true }

/-- Fixture: a cloned repo whose reported current branch is the empty
string, followed by a cloned repo on branch `b`. -/
def wEmptyBranch : Workspace :=
  { Repos := [mkRepo "a" { idleDriver with currentBranch := .ok "" },
              mkRepo "b" { idleDriver with currentBranch := .ok "b" }],
    Parallel := false }

/-- Fixture: cloned on main, not cloned, cloned on main. -/
def wConsistent : Workspace :=
  { Repos := [mkRepo "a" idleDriver,
              mkRepo "b" { idleDriver with cloned := false },
              mkRepo "c" idleDriver],
    Parallel := false }

/-- Fixture: one cloned repo with no open pull request and a working gh. -/
def wNoPR : Workspace :=
  { Repos := [mkRepo "a" idleDriver], Parallel := false }

/-- Fixture: two cloned repos on different branches (`main` / `feature`),
closing and every other driver call succeeding. -/
def wSplit : Workspace :=
  { Repos := [mkRepo "a" idleDriver,
              mkRepo "b" { idleDriver with currentBranch := .ok "feature",
                                           statusResult := .ok ⟨"feature", false, false, 0, 0, []⟩ }],
    Parallel := false }

/-- Fixture: a single repo that is not cloned. -/
def wUncloned : Workspace :=
  { Repos := [mkRepo "a" { idleDriver with cloned := false }], Parallel := false }

/-- Fixture: repo `a` with staged changes, repo `b` without. -/
def wStaged : Workspace :=
  { Repos := [mkRepo "a" { idleDriver with hasStagedChanges := .ok true },
              mkRepo "b" idleDriver],
    Parallel := false }

/-- Valid config fixture. -/
def cfgOk : Config :=
  { repos := [{ url := "u1", path := "p1" }, { url := "u2", path := "p2" }],
    settings := { defaultBranch := "main", parallel := true } }

/-- Config fixture with a duplicated path. -/
def cfgDup : Config :=
  { repos := [{ url := "u1", path := "p" }, { url := "u2", path := "p" }],
    settings := { defaultBranch := "main", parallel := true } }

/-! General lemmas about the fan-out executor. -/

theorem foldl_slotWrite_length (repos : List Repo) (p : Repo → β)
    (sched : List Nat) (acc : List (Option (Repo × β))) :
    (sched.foldl (slotWrite repos p) acc).length = acc.length := by
  induction sched generalizing acc with
  | nil => rfl
  | cons j rest ih =>
    rw [List.foldl_cons, ih]
    unfold slotWrite
    cases repos[j]? <;> simp

theorem foldl_slotWrite_getElem_of_not_mem (repos : List Repo) (p : Repo → β)
    (sched : List Nat) (acc : List (Option (Repo × β))) (i : Nat)
    (h : i ∉ sched) :
    (sched.foldl (slotWrite repos p) acc)[i]? = acc[i]? := by
  induction sched generalizing acc with
  | nil => rfl
  | cons j rest ih =>
    have hij : i ≠ j := fun he => h (he ▸ List.mem_cons_self j rest)
    rw [List.foldl_cons, ih _ (fun hm => h (List.mem_cons_of_mem j hm))]
    unfold slotWrite
    cases repos[j]? with
    | none => rfl
    | some r => exact List.getElem?_set_ne (Ne.symm hij)

theorem foldl_slotWrite_getElem_of_mem (repos : List Repo) (p : Repo → β)
    (sched : List Nat) (i : Nat) (r : Repo) (hr : repos[i]? = some r)
    (hmem : i ∈ sched) :
    ∀ acc : List (Option (Repo × β)), i < acc.length →
      (sched.foldl (slotWrite repos p) acc)[i]? = some (some (r, p r)) := by
  induction sched with
  | nil => exact absurd hmem (List.not_mem_nil i)
  | cons j rest ih =>
    intro acc hacc
    rw [List.foldl_cons]
    by_cases hmemr : i ∈ rest
    · apply ih hmemr
      have hlen : (slotWrite repos p acc j).length = acc.length := by
        unfold slotWrite
        cases repos[j]? <;> simp
      rw [hlen]
      exact hacc
    · have hij : i = j := by
        rcases List.mem_cons.mp hmem with h | h
        · exact h
        · exact absurd h hmemr
      subst hij
      rw [foldl_slotWrite_getElem_of_not_mem repos p rest _ i hmemr]
      unfold slotWrite
      rw [hr]
      exact List.getElem?_set_self hacc

/-- The core of claim C1: the joined fan-out result does not depend on the
completion order of the concurrent units — for any schedule that runs
every index exactly once, the slot list is the in-order map. -/
theorem parRun_perm (repos : List Repo) (p : Repo → β) (sched : List Nat)
    (h : sched.Perm (List.range repos.length)) :
    parRun repos p sched = repos.map (fun r => some (r, p r)) := by
  apply List.ext_getElem?
  intro i
  by_cases hi : i < repos.length
  · have hr : repos[i]? = some repos[i] := List.getElem?_eq_getElem hi
    have hmem : i ∈ sched := h.mem_iff.mpr (List.mem_range.mpr hi)
    unfold parRun
    rw [foldl_slotWrite_getElem_of_mem repos p sched i (repos[i]) hr hmem _
      (by simpa using hi)]
    rw [List.getElem?_map, hr]
    rfl
  · have h1 : (parRun repos p sched)[i]? = none := by
      apply List.getElem?_eq_none
      unfold parRun
      rw [foldl_slotWrite_length]
      simp only [List.length_replicate]
      omega
    have h2 : (repos.map (fun r => some (r, p r)))[i]? = none := by
      apply List.getElem?_eq_none
      simp only [List.length_map]
      omega
    rw [h1, h2]

/-- Both branches of forEach give the in-order map: the sequential branch
runs the in-order schedule, the parallel branch any permutation. -/
theorem forEach_eq (w : Workspace) (sched : List Nat) (p : Repo → β)
    (h : w.Parallel = true → sched.Perm (List.range w.Repos.length)) :
    w.forEach sched p = w.Repos.map (fun r => some (r, p r)) := by
  unfold Workspace.forEach
  cases hw : w.Parallel with
  | true =>
    rw [if_pos rfl]
    exact parRun_perm _ _ _ (h hw)
  | false =>
    rw [if_neg (by simp)]
    exact parRun_perm _ _ _ (List.Perm.refl _)

theorem forEach_alignedWith (w : Workspace) (sched : List Nat) (p : Repo → β)
    (h : w.Parallel = true → sched.Perm (List.range w.Repos.length)) :
    alignedWith (w.forEach sched p) w.Repos := by
  rw [forEach_eq w sched p h]
  constructor
  · simp
  · intro i hi
    refine ⟨p w.Repos[i], ?_⟩
    rw [List.getElem?_map, List.getElem?_eq_getElem hi]
    rfl

theorem forEach_getElem (w : Workspace) (sched : List Nat) (p : Repo → β)
    (h : w.Parallel = true → sched.Perm (List.range w.Repos.length))
    (i : Nat) (hi : i < w.Repos.length) :
    (w.forEach sched p)[i]? = some (some (w.Repos[i], p w.Repos[i])) := by
  rw [forEach_eq w sched p h, List.getElem?_map, List.getElem?_eq_getElem hi]
  rfl

theorem slotPayload_forEach (w : Workspace) (sched : List Nat) (p : Repo → β)
    (h : w.Parallel = true → sched.Perm (List.range w.Repos.length))
    (i : Nat) (hi : i < w.Repos.length) :
    slotPayload (w.forEach sched p) i = some (p w.Repos[i]) := by
  unfold slotPayload
  rw [forEach_getElem w sched p h i hi]
  rfl

/-! Lemmas about the consistency scan. -/

theorem consFold_of_ne (bs : List String) (f : String) (c : Bool) (hf : f ≠ "") :
    consFold bs f c = (f, c && bs.all (fun b => b == f)) := by
  induction bs generalizing c with
  | nil => simp [consFold]
  | cons b rest ih =>
    unfold consFold
    rw [if_neg hf]
    by_cases hbf : b = f
    · rw [if_neg (by simp [hbf]), ih c]
      simp [hbf]
    · rw [if_pos hbf, ih false]
      simp [hbf]

theorem consFold_spec (bs : List String) (hne : ∀ b ∈ bs, b ≠ "") :
    consFold bs "" true = (bs.headD "", bs.all (fun b => b == bs.headD "")) := by
  cases bs with
  | nil => rfl
  | cons b rest =>
    have hb : b ≠ "" := hne b (List.mem_cons_self b rest)
    unfold consFold
    rw [if_pos rfl, consFold_of_ne rest b true hb]
    simp

/-- A failed branch read of a cloned handle aborts the scan with that
failure, whatever the accumulator state. -/
theorem checkFrom_error (repos : List Repo) :
    ∀ (f : String) (c : Bool) (e : Err),
      clonedBranchList repos = .error e → checkFrom repos f c = .error e := by
  induction repos with
  | nil => intro f c e h; simp [clonedBranchList] at h
  | cons r rest ih =>
    intro f c e h
    unfold clonedBranchList at h
    unfold checkFrom
    split at h
    · rw [if_pos (by assumption)]
      exact ih f c e h
    · rw [if_neg (by assumption)]
      cases hcb : r.drv.currentBranch with
      | error e0 =>
        rw [hcb] at h
        dsimp only at h
        injection h with he
        subst he
        rfl
      | ok b =>
        rw [hcb] at h
        dsimp only at h
        cases hcl : clonedBranchList rest with
        | error e' =>
          rw [hcl] at h
          dsimp only [Except.map] at h
          injection h with he
          subst he
          dsimp only
          split
          · exact ih b c e' hcl
          · split
            · exact ih f false e' hcl
            · exact ih f c e' hcl
        | ok bs =>
          rw [hcl] at h
          simp [Except.map] at h

/-- When every branch read of a cloned handle succeeds, the scan is the
pure accumulator fold over the branches of the cloned handles. -/
theorem checkFrom_ok (repos : List Repo) :
    ∀ (f : String) (c : Bool) (bs : List String),
      clonedBranchList repos = .ok bs →
      checkFrom repos f c = .ok (consFold bs f c) := by
  induction repos with
  | nil =>
    intro f c bs h
    simp only [clonedBranchList] at h
    cases h
    rfl
  | cons r rest ih =>
    intro f c bs h
    unfold clonedBranchList at h
    unfold checkFrom
    split at h
    · rw [if_pos (by assumption)]
      exact ih f c bs h
    · rw [if_neg (by assumption)]
      cases hcb : r.drv.currentBranch with
      | error e0 =>
        rw [hcb] at h
        simp at h
      | ok b =>
        rw [hcb] at h
        dsimp only at h
        cases hcl : clonedBranchList rest with
        | error e' =>
          rw [hcl] at h
          simp [Except.map] at h
        | ok bs' =>
          rw [hcl] at h
          simp only [Except.map, Except.ok.injEq] at h
          subst h
          dsimp only
          by_cases hf : f = ""
          · subst hf
            rw [if_pos rfl, ih b c bs' hcl]
            simp [consFold]
          · rw [if_neg hf]
            by_cases hbf : b ≠ f
            · rw [if_pos hbf, ih f false bs' hcl]
              conv_rhs => rw [consFold]
              rw [if_neg hf, if_pos hbf]
            · rw [if_neg hbf, ih f c bs' hcl]
              conv_rhs => rw [consFold]
              rw [if_neg hf, if_neg hbf]

/-! Lemmas about config validation. -/

theorem validateFrom_eq_none_iff (l : List RepoConfig) (i : Nat) (seen : List String) :
    validateFrom l i seen = none ↔
      (∀ rc ∈ l, rc.url ≠ "" ∧ rc.path ≠ "" ∧ rc.path ∉ seen) ∧
      (l.map RepoConfig.path).Nodup := by
  induction l generalizing i seen with
  | nil => simp [validateFrom]
  | cons rc rest ih =>
    unfold validateFrom
    by_cases hu : rc.url = ""
    · rw [if_pos hu]
      simp only [List.mem_cons, List.map_cons, List.nodup_cons]
      constructor
      · intro h; exact absurd h (by simp)
      · rintro ⟨hall, -⟩
        exact absurd hu (hall rc (Or.inl rfl)).1
    · rw [if_neg hu]
      by_cases hp : rc.path = ""
      · rw [if_pos hp]
        simp only [List.mem_cons, List.map_cons, List.nodup_cons]
        constructor
        · intro h; exact absurd h (by simp)
        · rintro ⟨hall, -⟩
          exact absurd hp (hall rc (Or.inl rfl)).2.1
      · rw [if_neg hp]
        by_cases hs : seen.contains rc.path
        · rw [if_pos hs]
          have hmem : rc.path ∈ seen := by
            simpa [List.contains] using hs
          simp only [List.mem_cons, List.map_cons, List.nodup_cons]
          constructor
          · intro h; exact absurd h (by simp)
          · rintro ⟨hall, -⟩
            exact absurd hmem (hall rc (Or.inl rfl)).2.2
        · rw [if_neg hs]
          have hnmem : rc.path ∉ seen := by
            intro hmem
            exact hs (by simpa [List.contains] using hmem)
          rw [ih]
          simp only [List.mem_cons, List.map_cons, List.nodup_cons]
          constructor
          · rintro ⟨hall, hnd⟩
            refine ⟨?_, ?_, hnd⟩
            · rintro rc' (rfl | hm)
              · exact ⟨hu, hp, hnmem⟩
              · have h3 := hall rc' hm
                exact ⟨h3.1, h3.2.1, fun hmem => h3.2.2 (Or.inr hmem)⟩
            · intro hmem
              rcases List.mem_map.mp hmem with ⟨rc', hm, hpath⟩
              exact (hall rc' hm).2.2 (Or.inl hpath)
          · rintro ⟨hall, hhead, hnd⟩
            refine ⟨?_, hnd⟩
            intro rc' hm
            have h3 := hall rc' (Or.inr hm)
            refine ⟨h3.1, h3.2.1, ?_⟩
            rintro (heq | hmem')
            · exact hhead (List.mem_map.mpr ⟨rc', hm, heq⟩)
            · exact h3.2.2 hmem'

/-- config.Validate succeeds exactly when every entry has a non-empty url
and path and no two entries share a path. -/
theorem Validate_eq_none_iff (c : Config) :
    c.Validate = none ↔
      (∀ rc ∈ c.repos, rc.url ≠ "" ∧ rc.path ≠ "") ∧
      (c.repos.map RepoConfig.path).Nodup := by
  unfold Config.Validate
  rw [validateFrom_eq_none_iff]
  simp

/-! Claim theorems. -/

/-- Claim C1: for every workflow fan-out (Clone, Pull, Push, Status,
CreateBranch, DeleteBranch, Checkout, Commit, RunGit, GetPRs, CreatePRs,
ClosePRs) over any list of repository handles, the returned result list
has the same length as the input handle list and the result at index i
refers to the handle at index i, whether the parallel flag is true or
false (and for any completion order of the concurrent units). -/
theorem c1_fanout_length_order (w : Workspace) (sched : List Nat)
    (rebase force : Bool) (name message : String) (addAll : Bool)
    (args : List String) (title body base : String)
    (h : w.Parallel = true → sched.Perm (List.range w.Repos.length)) :
    C1Prop w sched rebase force name message addAll args title body base :=
  ⟨forEach_alignedWith w sched _ h, forEach_alignedWith w sched _ h,
   forEach_alignedWith w sched _ h, forEach_alignedWith w sched _ h,
   forEach_alignedWith w sched _ h, forEach_alignedWith w sched _ h,
   forEach_alignedWith w sched _ h, forEach_alignedWith w sched _ h,
   forEach_alignedWith w sched _ h, forEach_alignedWith w sched _ h,
   forEach_alignedWith w sched _ h, forEach_alignedWith w sched _ h⟩

/-- Witness for C1: a two-repo parallel workspace with the units
completing in reversed order. -/
theorem c1_fanout_length_order_witness :
    (wMixed.Parallel = true → ([1, 0] : List Nat).Perm (List.range wMixed.Repos.length)) ∧
    C1Prop wMixed [1, 0] false false "n" "m" false [] "t" "b" "" :=
  ⟨fun _ => by decide,
   c1_fanout_length_order wMixed [1, 0] false false "n" "m" false [] "t" "b" ""
     (fun _ => by decide)⟩

/-- Claim C6: Clone is idempotent — an already-cloned handle gets a
success outcome with no driver call at all (in particular no clone), and
a not-yet-cloned handle is cloned from its configured URL into its
resolved path after the parent-directory creation step. -/
theorem c6_clone_idempotent (w : Workspace) (sched : List Nat)
    (h : w.Parallel = true → sched.Perm (List.range w.Repos.length))
    (i : Nat) (hi : i < w.Repos.length) :
    (w.Repos[i].IsCloned = true →
      (w.Clone sched)[i]? = some (some (w.Repos[i], (none, [])))) ∧
    (w.Repos[i].IsCloned = false → w.Repos[i].drv.mkdirResult = none →
      (w.Clone sched)[i]? = some (some (w.Repos[i],
        (w.Repos[i].drv.cloneResult,
          [Call.mkdirParent, Call.cloneCall w.Repos[i].cfg.url w.Repos[i].fullPath])))) := by
  constructor
  · intro hc
    simp only [Workspace.Clone]
    rw [forEach_getElem w sched _ h i hi]
    simp [cloneOp, hc]
  · intro hc hm
    simp only [Workspace.Clone]
    rw [forEach_getElem w sched _ h i hi]
    simp [cloneOp, hc, hm]

/-- Witness for C6: parallel two-repo workspace, one cloned, one not. -/
theorem c6_clone_idempotent_witness :
    (wMixed.Clone [1, 0])[0]? =
      some (some (mkRepo "a" idleDriver, (none, []))) ∧
    (wMixed.Clone [1, 0])[1]? =
      some (some (mkRepo "b" { idleDriver with cloned := false },
        (none, [Call.mkdirParent,
                Call.cloneCall "git@example.com:b" "/ws/b"]))) :=
  ⟨(c6_clone_idempotent wMixed [1, 0] (fun _ => by decide) 0 (by decide)).1 (by decide),
   (c6_clone_idempotent wMixed [1, 0] (fun _ => by decide) 1 (by decide)).2
     (by decide) (by decide)⟩

/-- Claim C7: on a handle that is not cloned, each mutating workflow other
than Clone (Pull, Push, CreateBranch, DeleteBranch, Checkout, Commit)
produces the NotCloned error outcome for that handle with an empty driver
call trace. -/
theorem c7_uncloned_mutating_ops (w : Workspace) (sched : List Nat)
    (rebase force : Bool) (name message : String) (addAll : Bool)
    (h : w.Parallel = true → sched.Perm (List.range w.Repos.length))
    (i : Nat) (hi : i < w.Repos.length)
    (hnc : w.Repos[i].IsCloned = false) :
    (w.Pull rebase sched)[i]? = some (some (w.Repos[i], (some Err.notCloned, []))) ∧
    (w.Push force sched)[i]? = some (some (w.Repos[i], (some Err.notCloned, []))) ∧
    (w.CreateBranch name sched)[i]? = some (some (w.Repos[i], (some Err.notCloned, []))) ∧
    (w.DeleteBranch name sched)[i]? = some (some (w.Repos[i], (some Err.notCloned, []))) ∧
    (w.Checkout name sched)[i]? = some (some (w.Repos[i], (some Err.notCloned, []))) ∧
    (w.Commit message addAll sched)[i]? = some (some (w.Repos[i], (some Err.notCloned, []))) := by
  refine ⟨?_, ?_, ?_, ?_, ?_, ?_⟩
  all_goals
    simp only [Workspace.Pull, Workspace.Push, Workspace.CreateBranch,
      Workspace.DeleteBranch, Workspace.Checkout, Workspace.Commit]
  all_goals rw [forEach_getElem w sched _ h i hi]
  all_goals
    simp [pullOp, pushOp, createBranchOp, deleteBranchOp, checkoutOp, commitOp, hnc]

/-- Witness for C7: the single-uncloned-repo workspace, Pull conjunct. -/
theorem c7_uncloned_mutating_ops_witness :
    (wUncloned.Pull false [])[0]? =
      some (some (mkRepo "a" { idleDriver with cloned := false },
        (some Err.notCloned, []))) :=
  (c7_uncloned_mutating_ops wUncloned [] false false "n" "m" false
    (fun hp => absurd hp (by decide)) 0 (by decide) (by decide)).1

/-- Counterexample to claim C2 as stated: with cloned handles whose read
branches are `""` and `"b"`, the scan returns reference `"b"` — not the
branch `""` of the first cloned handle — and reports consistent even though
the two branches differ, because `""` is also the internal
"no reference yet" sentinel. -/
theorem c2_consistency_counterexample :
    clonedBranchList wEmptyBranch.Repos = .ok ["", "b"] ∧
    wEmptyBranch.CheckBranchConsistency = .ok ("b", true) ∧
    ¬(∃ cons, wEmptyBranch.CheckBranchConsistency = .ok ("", cons)) := by
  decide

/-- Claim C2 (amended): provided every cloned handle reports a non-empty
branch, the scan (when no read fails) returns the branch of the first
cloned handle as reference (`""` when no handle is cloned) and is consistent
exactly when the branch of every cloned handle equals the reference;
uncloned handles are skipped (only branches of cloned handles enter
`clonedBranchList`). -/
theorem c2_consistency_amended (w : Workspace) (bs : List String)
    (hok : clonedBranchList w.Repos = .ok bs)
    (hne : ∀ b ∈ bs, b ≠ "") :
    ∃ ref cons, w.CheckBranchConsistency = .ok (ref, cons) ∧
      ref = bs.headD "" ∧
      (bs = [] → ref = "" ∧ cons = true) ∧
      (cons = true ↔ ∀ b ∈ bs, b = ref) := by
  have h1 : w.CheckBranchConsistency = .ok (consFold bs "" true) :=
    checkFrom_ok w.Repos "" true bs hok
  rw [consFold_spec bs hne] at h1
  refine ⟨bs.headD "", bs.all (fun b => b == bs.headD ""), h1, rfl, ?_, ?_⟩
  · rintro rfl
    exact ⟨rfl, rfl⟩
  · simp [List.all_eq_true]

/-- Witness for the amended C2: three handles, two cloned on main. -/
theorem c2_consistency_amended_witness :
    (∀ b ∈ ["main", "main"], b ≠ "") ∧
    (∃ ref cons, wConsistent.CheckBranchConsistency = .ok (ref, cons) ∧
      ref = (["main", "main"]).headD "" ∧
      ((["main", "main"] : List String) = [] → ref = "" ∧ cons = true) ∧
      (cons = true ↔ ∀ b ∈ ["main", "main"], b = ref)) :=
  ⟨by decide, c2_consistency_amended wConsistent ["main", "main"] (by decide) (by decide)⟩

/-- Every commitCall the commit closure emits carries the workflow
message. -/
theorem commitOp_mem_commitCall (message : String) (addAll : Bool) (r : Repo) :
    ∀ m, Call.commitCall m ∈ (commitOp message addAll r).2 → m = message := by
  intro m hm
  unfold commitOp commitAfterStage at hm
  split at hm
  · simp at hm
  · split at hm
    · split at hm
      · simp at hm
      · split at hm <;> simp_all
    · split at hm <;> simp_all

/-- The commit closure emits a commitCall exactly when the handle is
cloned, the optional stage-all step succeeded, and staged changes were
reported. -/
theorem commitOp_commitCall_iff (message : String) (addAll : Bool) (r : Repo) :
    (∃ m, Call.commitCall m ∈ (commitOp message addAll r).2) ↔
      (r.IsCloned = true ∧ (addAll = true → r.drv.addAllResult = none) ∧
        r.drv.hasStagedChanges = .ok true) := by
  unfold commitOp commitAfterStage
  split
  · simp_all
  · split
    · split
      · simp_all
      · split <;> simp_all
    · split <;> simp_all

/-- Claim C8: in the Commit workflow every cloned handle with no staged
changes (after the optional stage-all) gets a success outcome with no
commit driver call; a commit call happens exactly for handles that are
cloned, had a successful stage-all step when requested, and report staged
changes; and every commit call in the whole fan-out carries the one
workflow message. -/
theorem c8_commit_policy (w : Workspace) (sched : List Nat)
    (message : String) (addAll : Bool)
    (h : w.Parallel = true → sched.Perm (List.range w.Repos.length))
    (i : Nat) (hi : i < w.Repos.length)
    (hc : w.Repos[i].IsCloned = true)
    (ha : addAll = true → w.Repos[i].drv.addAllResult = none) :
    (w.Repos[i].drv.hasStagedChanges = .ok false →
      (w.Commit message addAll sched)[i]? = some (some (w.Repos[i],
        (none, (if addAll then [Call.addAllCall] else []) ++ [Call.hasStagedCall])))) ∧
    (w.Repos[i].drv.hasStagedChanges = .ok true →
      (w.Commit message addAll sched)[i]? = some (some (w.Repos[i],
        (w.Repos[i].drv.commitResult message,
          (if addAll then [Call.addAllCall] else []) ++
            [Call.hasStagedCall, Call.commitCall message])))) ∧
    (∀ j, j < w.Repos.length → ∀ m,
      Call.commitCall m ∈ slotCalls (w.Commit message addAll sched) j →
        m = message) ∧
    (∀ j, (hj : j < w.Repos.length) →
      ((∃ m, Call.commitCall m ∈ slotCalls (w.Commit message addAll sched) j) ↔
        (w.Repos[j].IsCloned = true ∧
          (addAll = true → w.Repos[j].drv.addAllResult = none) ∧
          w.Repos[j].drv.hasStagedChanges = .ok true))) := by
  have hcalls : ∀ j, (hj : j < w.Repos.length) →
      slotCalls (w.Commit message addAll sched) j =
        (commitOp message addAll w.Repos[j]).2 := by
    intro j hj
    unfold slotCalls
    rw [show w.Commit message addAll sched =
          w.forEach sched (commitOp message addAll) from rfl,
        slotPayload_forEach w sched _ h j hj]
    rfl
  refine ⟨?_, ?_, ?_, ?_⟩
  · intro hs
    simp only [Workspace.Commit]
    rw [forEach_getElem w sched _ h i hi]
    cases haa : addAll with
    | false => simp [commitOp, commitAfterStage, hc, hs, haa]
    | true => simp [commitOp, commitAfterStage, hc, hs, haa, ha haa]
  · intro hs
    simp only [Workspace.Commit]
    rw [forEach_getElem w sched _ h i hi]
    cases haa : addAll with
    | false => simp [commitOp, commitAfterStage, hc, hs, haa]
    | true => simp [commitOp, commitAfterStage, hc, hs, haa, ha haa]
  · intro j hj m hm
    rw [hcalls j hj] at hm
    exact commitOp_mem_commitCall message addAll w.Repos[j] m hm
  · intro j hj
    rw [hcalls j hj]
    exact commitOp_commitCall_iff message addAll w.Repos[j]

/-- Witness for C8: repo `a` staged, repo `b` unstaged, no stage-all. -/
theorem c8_commit_policy_witness :
    (wStaged.Commit "msg" false [])[1]? =
      some (some (mkRepo "b" idleDriver, (none, [Call.hasStagedCall]))) ∧
    (wStaged.Commit "msg" false [])[0]? =
      some (some (mkRepo "a" { idleDriver with hasStagedChanges := .ok true },
        (none, [Call.hasStagedCall, Call.commitCall "msg"]))) :=
  ⟨(c8_commit_policy wStaged [] "msg" false (fun hp => absurd hp (by decide)) 1
      (by decide) (by decide) (fun hp => absurd hp (by decide))).1 (by decide),
   (c8_commit_policy wStaged [] "msg" false (fun hp => absurd hp (by decide)) 0
      (by decide) (by decide) (fun hp => absurd hp (by decide))).2.1 (by decide)⟩

/-- Claim C9: pull-request creation is idempotent per handle — an existing
PR for the current branch is returned with Existed = true and no create
call; with no existing PR a create happens and the new PR is returned
with Existed = false, and a second create call on the resulting handle
returns the very same PR with Existed = true and no create call. -/
theorem c9_createpr_idempotent (w : Workspace) (sched : List Nat)
    (title body base : String)
    (h : w.Parallel = true → sched.Perm (List.range w.Repos.length))
    (i : Nat) (hi : i < w.Repos.length)
    (hc : w.Repos[i].IsCloned = true)
    (hgf : w.Repos[i].drv.getPRFail = none) :
    (∀ p0, w.Repos[i].drv.hostPR = some p0 →
      (w.CreatePRs title body base sched)[i]? = some (some (w.Repos[i],
        ((⟨some p0, true, none⟩, w.Repos[i]), [Call.getPRCall])))) ∧
    (w.Repos[i].drv.hostPR = none → w.Repos[i].drv.createFail = none →
      ((w.CreatePRs title body base sched)[i]? = some (some (w.Repos[i],
        ((⟨some (w.Repos[i].drv.createdPR), false, none⟩, afterCreate w.Repos[i]),
          [Call.getPRCall, Call.createPRCall title body base, Call.getPRCall]))) ∧
      createPROp title body base (afterCreate w.Repos[i]) =
        ((⟨some (w.Repos[i].drv.createdPR), true, none⟩, afterCreate w.Repos[i]),
          [Call.getPRCall]))) := by
  have hc' : w.Repos[i].drv.cloned = true := hc
  constructor
  · intro p0 hp
    simp only [Workspace.CreatePRs]
    rw [forEach_getElem w sched _ h i hi]
    simp [createPROp, Repo.GetPR, hc, hgf, hp]
  · intro hp hcf
    constructor
    · simp only [Workspace.CreatePRs]
      rw [forEach_getElem w sched _ h i hi]
      simp [createPROp, Repo.GetPR, Repo.IsCloned, afterCreate, hc', hgf, hp, hcf]
    · simp [createPROp, Repo.GetPR, Repo.IsCloned, afterCreate, hc', hgf, hp, hcf]

/-- Witness for C9: single cloned repo with no PR; the create-then-reuse
pair of calls. -/
theorem c9_createpr_idempotent_witness :
    (wNoPR.CreatePRs "t" "b" "" [])[0]? = some (some (mkRepo "a" idleDriver,
      ((⟨some idleDriver.createdPR, false, none⟩, afterCreate (mkRepo "a" idleDriver)),
        [Call.getPRCall, Call.createPRCall "t" "b" "", Call.getPRCall]))) ∧
    createPROp "t" "b" "" (afterCreate (mkRepo "a" idleDriver)) =
      ((⟨some idleDriver.createdPR, true, none⟩, afterCreate (mkRepo "a" idleDriver)),
        [Call.getPRCall]) :=
  (c9_createpr_idempotent wNoPR [] "t" "b" "" (fun hp => absurd hp (by decide)) 0
    (by decide) (by decide) (by decide)).2 (by decide) (by decide)

/-- A Status outcome has exactly one of the status value and the error. -/
theorem statusOp_exclusive (r : Repo) :
    ∃ st e tr, statusOp r = ((st, e), tr) ∧ (st.isSome ↔ e = none) := by
  unfold statusOp
  by_cases hcl : r.IsCloned = true
  · rw [if_neg (by simp [hcl])]
    cases hst : r.drv.statusResult with
    | error e0 => exact ⟨none, some e0, [.statusCall], rfl, by simp⟩
    | ok s => exact ⟨some s, none, [.statusCall], rfl, by simp⟩
  · rw [if_pos (by simp [Bool.not_eq_true] at hcl ⊢; exact hcl)]
    exact ⟨none, some .repoNotCloned, [], rfl, by simp⟩

/-- A GetPRs outcome never has both the PR and the error; both are absent
exactly when a cloned handle's lookup succeeded finding no PR. -/
theorem getPROp_exclusive (r : Repo) :
    ∃ pr e tr, getPROp r = ((pr, e), tr) ∧ ¬(pr.isSome ∧ e.isSome) ∧
      (pr = none ∧ e = none → r.IsCloned = true ∧ r.GetPR = .ok none) := by
  unfold getPROp
  by_cases hcl : r.IsCloned = true
  · rw [if_neg (by simp [hcl])]
    cases hpr : r.GetPR with
    | error e0 => exact ⟨none, some e0, [.getPRCall], rfl, by simp, by simp⟩
    | ok opr =>
      exact ⟨opr, none, [.getPRCall], rfl, by simp, fun hb => ⟨hcl, by rw [hb.1]⟩⟩
  · rw [if_pos (by simp [Bool.not_eq_true] at hcl ⊢; exact hcl)]
    exact ⟨none, some .notCloned, [], rfl, by simp, by simp⟩

/-- A CreatePRs outcome never has both the PR and the error present, and
never both absent. -/
theorem createPROp_exclusive (title body base : String) (r : Repo) :
    ∃ pl rU tr, createPROp title body base r = ((pl, rU), tr) ∧
      ¬(pl.pr.isSome ∧ pl.error.isSome) ∧ ¬(pl.pr = none ∧ pl.error = none) := by
  unfold createPROp
  by_cases hcl : r.IsCloned = true
  · rw [if_neg (by simp [hcl])]
    cases hpr : r.GetPR with
    | error e0 =>
      exact ⟨⟨none, false, some (.wrapped "checking existing PR" e0)⟩, r, _,
        rfl, by simp, by simp⟩
    | ok opr =>
      cases opr with
      | some p0 => exact ⟨⟨some p0, true, none⟩, r, _, rfl, by simp, by simp⟩
      | none =>
        cases hcf : r.drv.createFail with
        | some e0 => exact ⟨⟨none, false, some e0⟩, r, _, rfl, by simp, by simp⟩
        | none =>
          have hgf : r.drv.getPRFail = none := by
            unfold Repo.GetPR at hpr
            cases hg : r.drv.getPRFail with
            | some e => rw [hg] at hpr; simp at hpr
            | none => rfl
          have h2 : (afterCreate r).GetPR = .ok (some r.drv.createdPR) := by
            unfold Repo.GetPR afterCreate
            simp [hgf]
          cases hpr2 : (afterCreate r).GetPR with
          | error e1 =>
            rw [h2] at hpr2
            simp at hpr2
          | ok pr2 =>
            rw [h2] at hpr2
            injection hpr2 with he
            subst he
            exact ⟨⟨some r.drv.createdPR, false, none⟩, afterCreate r, _,
              rfl, by simp, by simp⟩
  · rw [if_pos (by simp [Bool.not_eq_true] at hcl ⊢; exact hcl)]
    exact ⟨⟨none, false, some .notCloned⟩, r, _, rfl, by simp, by simp⟩

/-- Counterexample to claim C3 as stated: a cloned handle with a working
gh but no open pull request gives a completed GetPRs outcome whose value
and error are both absent (the Go GetPR returns `(nil, nil)`). -/
theorem c3_outcome_counterexample :
    slotPayload (wNoPR.GetPRs []) 0 = some ((none, none), [Call.getPRCall]) ∧
    (wNoPR.GetPRs []).length = 1 := by
  decide

/-- Claim C3 (amended): a completed outcome never has both value and error
present; for Status exactly one is present; only GetPRs outcomes may have
both absent, and exactly when a cloned handle performed a lookup that
succeeded finding no pull request (the valid "no PR" terminal state);
CreatePRs outcomes are never both absent, because a reused PR is returned
directly and a successful create leaves the PR visible to the trailing
lookup (the driver contract also underlying the C9 idempotence). -/
theorem c3_outcome_exclusivity (w : Workspace) (sched : List Nat)
    (title body base : String)
    (h : w.Parallel = true → sched.Perm (List.range w.Repos.length))
    (i : Nat) (hi : i < w.Repos.length) :
    (∃ st e tr, slotPayload (w.Status sched) i = some ((st, e), tr) ∧
      (st.isSome ↔ e = none)) ∧
    (∃ pr e tr, slotPayload (w.GetPRs sched) i = some ((pr, e), tr) ∧
      ¬(pr.isSome ∧ e.isSome) ∧
      (pr = none ∧ e = none → w.Repos[i].IsCloned = true ∧
        w.Repos[i].GetPR = .ok none)) ∧
    (∃ pl rU tr, slotPayload (w.CreatePRs title body base sched) i =
        some ((pl, rU), tr) ∧
      ¬(pl.pr.isSome ∧ pl.error.isSome) ∧ ¬(pl.pr = none ∧ pl.error = none)) := by
  refine ⟨?_, ?_, ?_⟩
  · obtain ⟨st, e, tr, heq, hx⟩ := statusOp_exclusive w.Repos[i]
    refine ⟨st, e, tr, ?_, hx⟩
    rw [show w.Status sched = w.forEach sched statusOp from rfl,
      slotPayload_forEach w sched _ h i hi, heq]
  · obtain ⟨pr, e, tr, heq, hx, hy⟩ := getPROp_exclusive w.Repos[i]
    refine ⟨pr, e, tr, ?_, hx, hy⟩
    rw [show w.GetPRs sched = w.forEach sched getPROp from rfl,
      slotPayload_forEach w sched _ h i hi, heq]
  · obtain ⟨pl, rU, tr, heq, hx, hy⟩ := createPROp_exclusive title body base w.Repos[i]
    refine ⟨pl, rU, tr, ?_, hx, hy⟩
    rw [show w.CreatePRs title body base sched =
        w.forEach sched (createPROp title body base) from rfl,
      slotPayload_forEach w sched _ h i hi, heq]

/-- Witness for the amended C3: the split-branch two-repo workspace. -/
theorem c3_outcome_exclusivity_witness :
    (∃ st e tr, slotPayload (wSplit.Status []) 0 = some ((st, e), tr) ∧
      (st.isSome ↔ e = none)) ∧
    (∃ pr e tr, slotPayload (wSplit.GetPRs []) 0 = some ((pr, e), tr) ∧
      ¬(pr.isSome ∧ e.isSome) ∧
      (pr = none ∧ e = none → wSplit.Repos[0].IsCloned = true ∧
        wSplit.Repos[0].GetPR = .ok none)) ∧
    (∃ pl rU tr, slotPayload (wSplit.CreatePRs "t" "b" "" []) 0 =
        some ((pl, rU), tr) ∧
      ¬(pl.pr.isSome ∧ pl.error.isSome) ∧ ¬(pl.pr = none ∧ pl.error = none)) :=
  c3_outcome_exclusivity wSplit [] "t" "b" ""
    (fun hp => absurd hp (by decide)) 0 (by decide)

/-- Counterexample to claim C4 as stated: with two cloned repos on
branches `main` and `feature` — an inconsistent workspace — the pr close
command still performs one driver close call per repo and exits zero,
instead of failing hard with zero close calls. -/
theorem c4_close_counterexample :
    wSplit.CheckBranchConsistency = .ok ("main", false) ∧
    (prCloseCmd wSplit []).2.1 = [Call.closePRCall, Call.closePRCall] ∧
    (prCloseCmd wSplit []).2.2 = .ok () := by
  decide

/-- Claim C4 (amended): the close workflow runs the branch-consistency
check first and a branch-read failure aborts it before any close call;
but mere inconsistency only prints a warning and the ClosePRs fan-out is
dispatched anyway, the exit status reflecting only per-repository close
failures. -/
theorem c4_close_warn_only (w : Workspace) (sched : List Nat) :
    (∀ e, w.CheckBranchConsistency = .error e →
      prCloseCmd w sched = ([], [], .error e)) ∧
    (∀ branch, w.CheckBranchConsistency = .ok (branch, false) →
      (prCloseCmd w sched).1.head? = some Out.warnInconsistent ∧
      (prCloseCmd w sched).2.1 = collectCalls (w.ClosePRs sched) ∧
      ((prCloseCmd w sched).2.2 = .ok () ↔
        HasErrors (w.ClosePRs sched) = false)) := by
  constructor
  · intro e he
    unfold prCloseCmd
    rw [he]
  · intro branch hb
    unfold prCloseCmd
    rw [hb]
    refine ⟨by simp, by simp, ?_⟩
    by_cases hE : HasErrors (w.ClosePRs sched) <;> simp [hE]

/-- Witness for the amended C4: the split-branch workspace warns and still
closes. -/
theorem c4_close_warn_only_witness :
    wSplit.CheckBranchConsistency = .ok ("main", false) ∧
    ((prCloseCmd wSplit []).1.head? = some Out.warnInconsistent ∧
     (prCloseCmd wSplit []).2.1 = collectCalls (wSplit.ClosePRs []) ∧
     ((prCloseCmd wSplit []).2.2 = .ok () ↔
       HasErrors (wSplit.ClosePRs []) = false)) :=
  ⟨by decide, (c4_close_warn_only wSplit []).2 "main" (by decide)⟩

/-- The failing input of claim C5 evaluated: on a workspace whose single
repo is not cloned, the status command prints the error outcome
but its RunE returns nil — the process exits zero — and likewise for the
pr status command, although both fan-outs produced an error outcome. -/
theorem c5_status_exit_zero :
    (statusCmd wUncloned []).2 = .ok () ∧
    (statusCmd wUncloned []).1 = [Out.repoErr "a" Err.repoNotCloned] ∧
    slotPayload (wUncloned.Status []) 0 =
      some ((none, some Err.repoNotCloned), []) ∧
    (prStatusCmd wUncloned []).2 = .ok () ∧
    slotPayload (wUncloned.GetPRs []) 0 =
      some ((none, some Err.notCloned), []) := by
  decide

/-- Claim C10: config.Parse succeeds only when every repository entry has
a non-empty url and path and no two entries share a path, so every
workspace constructed from a parsed config (also via Load) has
pairwise-distinct, non-empty repository paths. -/
theorem c10_config_invariants (decoded : Except String Config) (cfg : Config)
    (root : String) (fs : String → DriverState)
    (hp : Parse decoded = .ok cfg) :
    (∀ rc ∈ cfg.repos, rc.url ≠ "" ∧ rc.path ≠ "") ∧
    (cfg.repos.map RepoConfig.path).Nodup ∧
    ((Workspace.New cfg root fs).Repos.map Repo.Name).Nodup ∧
    (∀ r ∈ (Workspace.New cfg root fs).Repos, r.Name ≠ "") ∧
    Workspace.Load decoded root fs = .ok (Workspace.New cfg root fs) := by
  have hv : cfg.Validate = none := by
    unfold Parse at hp
    cases decoded with
    | error e => simp at hp
    | ok cfg0 =>
      dsimp only at hp
      cases hval : cfg0.Validate with
      | some e =>
        rw [hval] at hp
        simp at hp
      | none =>
        rw [hval] at hp
        injection hp with h0
        subst h0
        exact hval
  obtain ⟨h1, h2⟩ := (Validate_eq_none_iff cfg).mp hv
  have hmap : (Workspace.New cfg root fs).Repos.map Repo.Name =
      cfg.repos.map RepoConfig.path := by
    unfold Workspace.New
    rw [List.map_map]
    rfl
  refine ⟨h1, h2, ?_, ?_, ?_⟩
  · rw [hmap]
    exact h2
  · intro r hr
    unfold Workspace.New at hr
    rcases List.mem_map.mp hr with ⟨rc, hm, hrc⟩
    rw [← hrc]
    exact (h1 rc hm).2
  · unfold Workspace.Load
    rw [hp]

/-- Witness for C10: a two-entry valid config parsed and loaded. -/
theorem c10_config_invariants_witness :
    (∀ rc ∈ cfgOk.repos, rc.url ≠ "" ∧ rc.path ≠ "") ∧
    (cfgOk.repos.map RepoConfig.path).Nodup ∧
    ((Workspace.New cfgOk "/ws" (fun _ => idleDriver)).Repos.map Repo.Name).Nodup ∧
    (∀ r ∈ (Workspace.New cfgOk "/ws" (fun _ => idleDriver)).Repos, r.Name ≠ "") ∧
    Workspace.Load (.ok cfgOk) "/ws" (fun _ => idleDriver) =
      .ok (Workspace.New cfgOk "/ws" (fun _ => idleDriver)) :=
  c10_config_invariants (.ok cfgOk) cfgOk "/ws" (fun _ => idleDriver) (by decide)

end Mergeish
